import Mathlib

/-!
Verification of the toast notification component in
`src/components/ui/Toast.tsx`.

The Store state is the ordered list of active toasts.  `addToast` builds a
toast by spreading the caller data over the defaults `id` and
`duration: 5000` and prepends it; `removeToast` filters out entries whose
`id` matches.  Id generation (`Math.random().toString(36).substr(2, 9)`)
is nondeterministic, so the embedding takes the generated id as an explicit
input of each `add` step.  The per-entry timer logic of `ToastItem`
(`useEffect` guard `!toast.persistent && toast.duration !== 0`, delay
`toast.duration || 5000`, exit hold 300 ms in `handleRemove`) is embedded
as delay computations on a single toast.
-/

/-- The four severities of `ToastType` in the source. -/
inductive ToastType where
  | success
  | error
  | warning
  | info
  deriving DecidableEq, Repr

/-- A stored toast entry (`interface Toast`).  `duration := none` models a
stored `undefined` duration; `persistent := none` models an absent or
`undefined` flag (JavaScript treats both as falsy in the timer guard). -/
structure Toast where
  id : String
  type : ToastType
  title : Option String
  message : String
  duration : Option Nat
  persistent : Option Bool
  deriving DecidableEq, Repr

/-- Caller input to `addToast` (`Omit<Toast, 'id'>`).  For `duration` the
outer `Option` records whether the field is present in the object literal
(spread semantics: an absent field keeps the default, a present field —
even one set to `undefined`, the inner `none` — overrides it). -/
structure ToastData where
  type : ToastType
  title : Option String
  message : String
  duration : Option (Option Nat)
  persistent : Option Bool
  deriving DecidableEq, Repr

/-- The object built inside `addToast`: `{ id, duration: 5000, ...toastData }`.
Fields of `toastData` win over the defaults because the spread comes last. -/
def mkToast (id : String) (data : ToastData) : Toast :=
  ⟨id, data.type, data.title, data.message,
    (match data.duration with
      | none => some 5000
      | some d => d),
    data.persistent⟩

/-- `addToast`: prepend the merged toast, `setToasts(prev => [toast, ...prev])`.
The generated id is passed in explicitly (it comes from `Math.random`). -/
def addToast (data : ToastData) (id : String) (prev : List Toast) : List Toast :=
  mkToast id data :: prev

/-- `removeToast`: `setToasts(prev => prev.filter(toast => toast.id !== id))`. -/
def removeToast (id : String) (prev : List Toast) : List Toast :=
  prev.filter (fun t => t.id != id)

/-- Guard of the expiry `useEffect` in `ToastItem`:
`!toast.persistent && toast.duration !== 0`. -/
def schedulesTimer (t : Toast) : Bool :=
  !(t.persistent.getD false) && t.duration != some 0

/-- Delay passed to `setTimeout` when the guard holds: `toast.duration || 5000`
(a falsy stored duration — `undefined` or `0` — falls back to 5000). -/
def timerDelay (t : Toast) : Nat :=
  match t.duration with
  | none => 5000
  | some d => if d = 0 then 5000 else d

/-- Elapsed time after mount at which the expiry timer fires, if one is
scheduled at all. -/
def expiryDelay (t : Toast) : Option Nat :=
  if schedulesTimer t then some (timerDelay t) else none

/-- Elapsed time after mount at which the entry issues its removal request
to the Store: the timer delay plus the 300 ms exit hold of `handleRemove`. -/
def removalRequestDelay (t : Toast) : Option Nat :=
  (expiryDelay t).map (fun d => d + 300)

/-- Whether the entry has requested its own auto-removal once `elapsed`
milliseconds have passed since mount. -/
def autoRemovedBy (t : Toast) (elapsed : Nat) : Bool :=
  match removalRequestDelay t with
  | none => false
  | some d => decide (d ≤ elapsed)

/-- `useToast`: returns the context when a provider is mounted, throws
`useToast must be used within a ToastProvider` otherwise. -/
def useToast {α : Type} (context : Option α) : Except String α :=
  match context with
  | none => Except.error "useToast must be used within a ToastProvider"
  | some c => Except.ok c

/-- The legacy free function `toast(message, type)`: it only logs a warning
and touches the store not at all.  Result: the (unchanged) store and the
list of emitted console warnings. -/
def toast (message : String) (ty : ToastType) (store : List Toast) :
    List Toast × List String :=
  (store, ["Legacy toast function called. Please use useToast hook instead."])

/-- One observable store operation; `add` carries the id that the random
generator produced for this call. -/
inductive Op where
  | add (data : ToastData) (id : String)
  | remove (id : String)
  deriving DecidableEq, Repr

/-- Effect of one operation on the store state. -/
def step (l : List Toast) : Op → List Toast
  | Op.add data id => addToast data id l
  | Op.remove id => removeToast id l

/-- Run a sequence of operations from a given state. -/
def runFrom (l : List Toast) (ops : List Op) : List Toast :=
  ops.foldl step l

/-- Run a sequence of operations from the empty store. -/
def run (ops : List Op) : List Toast :=
  runFrom [] ops

/-- Number of `add` calls in a trace. -/
def numAdds : List Op → Nat
  | [] => 0
  | Op.add _ _ :: rest => numAdds rest + 1
  | Op.remove _ :: rest => numAdds rest

/-- Number of entries actually dropped by the `remove` calls of a trace run
from state `l` (a `remove` whose id matches nothing drops nothing). -/
def removedFrom (l : List Toast) : List Op → Nat
  | [] => 0
  | Op.add d i :: rest => removedFrom (addToast d i l) rest
  | Op.remove i :: rest =>
      l.countP (fun t => t.id == i) + removedFrom (removeToast i l) rest

/-- The ids handed to the `add` calls of a trace, in order. -/
def addIds : List Op → List String
  | [] => []
  | Op.add _ i :: rest => i :: addIds rest
  | Op.remove _ :: rest => addIds rest

/-- A sample caller input with every optional field absent. -/
def sampleData : ToastData :=
  ⟨ToastType.info, none, "hi", none, none⟩

/-- A sample caller input whose duration field is present but `undefined`. -/
def sampleDataU : ToastData :=
  ⟨ToastType.info, none, "hi", some none, none⟩

theorem removeToast_length (i : String) (l : List Toast) :
    (removeToast i l).length + l.countP (fun t => t.id == i) = l.length := by
  induction l with
  | nil => rfl
  | cons t rest ih =>
    simp only [removeToast, List.filter_cons, List.countP_cons] at *
    by_cases h : t.id = i <;> simp [h] <;> omega

theorem runFrom_length (ops : List Op) : ∀ l : List Toast,
    (runFrom l ops).length + removedFrom l ops = l.length + numAdds ops := by
  induction ops with
  | nil => intro l; simp [runFrom, removedFrom, numAdds]
  | cons op rest ih =>
    intro l
    cases op with
    | add d i =>
      have h := ih (addToast d i l)
      simp only [runFrom, List.foldl_cons, step, removedFrom, numAdds,
        addToast, List.length_cons] at *
      omega
    | remove i =>
      have h := ih (removeToast i l)
      have hlen := removeToast_length i l
      simp only [runFrom, List.foldl_cons, step, removedFrom, numAdds] at *
      omega

theorem runFrom_ids_nodup (ops : List Op) : ∀ l : List Toast,
    (l.map (fun t => t.id) ++ addIds ops).Nodup →
    ((runFrom l ops).map (fun t => t.id)).Nodup := by
  induction ops with
  | nil =>
    intro l h
    simpa [runFrom, addIds] using h
  | cons op rest ih =>
    intro l h
    cases op with
    | add d i =>
      show ((runFrom (addToast d i l) rest).map (fun t => t.id)).Nodup
      apply ih (addToast d i l)
      have hperm : ((addToast d i l).map (fun t => t.id) ++ addIds rest).Perm
          (l.map (fun t => t.id) ++ i :: addIds rest) := by
        simp only [addToast, List.map_cons, mkToast, List.cons_append]
        exact (List.perm_middle).symm
      apply hperm.nodup_iff.mpr
      simpa [addIds] using h
    | remove i =>
      show ((runFrom (removeToast i l) rest).map (fun t => t.id)).Nodup
      apply ih (removeToast i l)
      have hsub : ((removeToast i l).map (fun t => t.id) ++ addIds rest).Sublist
          (l.map (fun t => t.id) ++ addIds rest) := by
        apply List.Sublist.append
        · exact (List.filter_sublist l).map (fun t => t.id)
        · exact List.Sublist.refl _
      apply hsub.nodup
      simpa [addIds] using h

/-- Claim C1: for every sequence of `addToast` and `removeToast` calls from
the empty store, the active collection length equals the number of adds
minus the number of completed removals (entries actually dropped) so far. -/
theorem store_length_conservation (ops : List Op) :
    (run ops).length + removedFrom [] ops = numAdds ops := by
  have h := runFrom_length ops []
  simpa [run] using h

/-- Claim C2, counterexample: `addToast` performs no deduplication and the
random generator may repeat, so a trace whose two `add` calls happen to draw
the same id leaves two active entries with equal ids. -/
theorem store_ids_can_collide :
    ¬ (((run [Op.add sampleData "abc", Op.add sampleData "abc"]).map
        (fun t => t.id)).Nodup) := by
  decide

/-- Claim C2 (amended): whenever the ids drawn by the `add` calls of a trace
are pairwise distinct, the ids of the currently active entries are pairwise
distinct at every observation point.  The code itself never checks for
collisions, so uniqueness holds only conditionally on the generator. -/
theorem store_ids_nodup (ops : List Op) (h : (addIds ops).Nodup) :
    ((run ops).map (fun t => t.id)).Nodup := by
  have hr := runFrom_ids_nodup ops [] (by simpa using h)
  simpa [run] using hr

theorem store_ids_nodup_witness :
    ((run [Op.add sampleData "a", Op.add sampleData "b"]).map
      (fun t => t.id)).Nodup :=
  store_ids_nodup [Op.add sampleData "a", Op.add sampleData "b"] (by decide)

/-- Claim C3: `addToast` on data without a duration field stores the fresh
id, the default duration 5000, every caller field unchanged, and prepends
the entry; when the caller does supply a duration field, the supplied value
wins over the default. -/
theorem addToast_merges_defaults (data : ToastData) (id : String)
    (l : List Toast) :
    (data.duration = none →
      addToast data id l =
        ⟨id, data.type, data.title, data.message, some 5000,
          data.persistent⟩ :: l) ∧
    (∀ d, data.duration = some d → (mkToast id data).duration = d) := by
  constructor
  · intro h
    simp [addToast, mkToast, h]
  · intro d h
    simp [mkToast, h]

theorem addToast_merges_defaults_witness :
    addToast sampleData "a" [] =
      ⟨"a", ToastType.info, none, "hi", some 5000, none⟩ :: [] ∧
    (mkToast "a" sampleDataU).duration = none :=
  ⟨(addToast_merges_defaults sampleData "a" []).1 rfl,
    (addToast_merges_defaults sampleDataU "a" []).2 none rfl⟩

/-- Claim C4: every add prepends its entry, so after `add(A)` then `add(B)`
the store is the B entry, then the A entry, then the previous entries: the
collection stays in insertion order with newest first. -/
theorem addToast_newest_first (dA dB : ToastData) (iA iB : String)
    (l : List Toast) :
    addToast dA iA l = mkToast iA dA :: l ∧
    addToast dB iB (addToast dA iA l) =
      mkToast iB dB :: mkToast iA dA :: l :=
  ⟨rfl, rfl⟩

/-- Claim C5: `removeToast` on an id matching no active entry returns the
collection unchanged (a no-op, not an error), and membership after a remove
is exactly membership before minus the entries whose id matched. -/
theorem removeToast_noop_or_removes (i : String) (l : List Toast) :
    ((∀ t ∈ l, t.id ≠ i) → removeToast i l = l) ∧
    (∀ t, t ∈ removeToast i l ↔ t ∈ l ∧ t.id ≠ i) := by
  constructor
  · intro h
    apply List.filter_eq_self.mpr
    intro t ht
    simpa using h t ht
  · intro t
    simp [removeToast, List.mem_filter]

theorem removeToast_noop_or_removes_witness :
    removeToast "b" [mkToast "a" sampleData] = [mkToast "a" sampleData] :=
  (removeToast_noop_or_removes "b" [mkToast "a" sampleData]).1 (by decide)

/-- Claim C6: a toast with `persistent = true`, and likewise a toast with
duration 0 and `persistent` unset, never gets an expiry timer scheduled and
is never auto-removed no matter how much time elapses. -/
theorem persistent_or_zero_never_auto (t : Toast) (elapsed : Nat)
    (h : t.persistent = some true ∨
      (t.duration = some 0 ∧ t.persistent = none)) :
    expiryDelay t = none ∧ autoRemovedBy t elapsed = false := by
  rcases h with h | ⟨h1, h2⟩
  · simp [expiryDelay, schedulesTimer, autoRemovedBy, removalRequestDelay, h]
  · simp [expiryDelay, schedulesTimer, autoRemovedBy, removalRequestDelay,
      h1, h2]

theorem persistent_or_zero_never_auto_witness :
    expiryDelay ⟨"p", ToastType.info, none, "m", some 5000, some true⟩ =
      none ∧
    autoRemovedBy ⟨"p", ToastType.info, none, "m", some 5000, some true⟩
      1000000 = false :=
  persistent_or_zero_never_auto
    ⟨"p", ToastType.info, none, "m", some 5000, some true⟩ 1000000
    (Or.inl rfl)

/-- Claim C7: a toast added with default settings (no duration or persistent
field supplied) issues its removal request exactly 5000 + 300 ms after
mount — hence no earlier than mount time plus 5000 ms plus the 300 ms exit
hold — and the resulting `removeToast`, when its id matches exactly one
active entry, shrinks the collection length by exactly one. -/
theorem default_toast_removal (data : ToastData) (id : String)
    (l : List Toast) (h1 : data.duration = none) (h2 : data.persistent = none)
    (h3 : l.countP (fun t => t.id == id) = 1) :
    removalRequestDelay (mkToast id data) = some (5000 + 300) ∧
    (∀ e, autoRemovedBy (mkToast id data) e = true → 5000 + 300 ≤ e) ∧
    (removeToast id l).length + 1 = l.length := by
  refine ⟨?_, ?_, ?_⟩
  · simp [removalRequestDelay, expiryDelay, schedulesTimer, timerDelay,
      mkToast, h1, h2]
  · intro e he
    simpa [autoRemovedBy, removalRequestDelay, expiryDelay, schedulesTimer,
      timerDelay, mkToast, h1, h2] using he
  · have hlen := removeToast_length id l
    omega

theorem default_toast_removal_witness :
    removalRequestDelay (mkToast "a" sampleData) = some (5000 + 300) ∧
    (∀ e, autoRemovedBy (mkToast "a" sampleData) e = true → 5000 + 300 ≤ e) ∧
    (removeToast "a" [mkToast "a" sampleData]).length + 1 =
      [mkToast "a" sampleData].length :=
  default_toast_removal sampleData "a" [mkToast "a" sampleData] rfl rfl
    (by decide)

/-- Claim C8: `useToast` with no mounted provider (no context value) always
fails with the contract-violation error instead of returning any context
object. -/
theorem useToast_fails_without_provider (α : Type) :
    useToast (none : Option α) =
      Except.error "useToast must be used within a ToastProvider" :=
  rfl

/-- Claim C9: the legacy free function `toast` leaves the store untouched
for every input and only emits the deprecation warning. -/
theorem legacy_toast_inert (m : String) (ty : ToastType) (l : List Toast) :
    (toast m ty l).1 = l ∧
    (toast m ty l).2 =
      ["Legacy toast function called. Please use useToast hook instead."] :=
  ⟨rfl, rfl⟩

/-- Claim C10: when the caller passes a duration field that is explicitly
`undefined`, the spread overrides the default so the stored duration is
`undefined`; for a non-persistent entry the expiry timer is still scheduled
and the `toast.duration || 5000` fallback makes it fire after 5000 ms. -/
theorem undefined_duration_still_expires (data : ToastData) (id : String)
    (h1 : data.duration = some none)
    (h2 : data.persistent.getD false = false) :
    (mkToast id data).duration = none ∧
    expiryDelay (mkToast id data) = some 5000 := by
  constructor
  · simp [mkToast, h1]
  · simp [expiryDelay, schedulesTimer, timerDelay, mkToast, h1, h2]

theorem undefined_duration_still_expires_witness :
    (mkToast "a" sampleDataU).duration = none ∧
    expiryDelay (mkToast "a" sampleDataU) = some 5000 :=
  undefined_duration_still_expires sampleDataU "a" rfl rfl
